import Mathlib

/-!
Verification of the predicate evaluation core of IronBee
(`IronBee::Predicate::NodeEvalState` / `GraphEvalState`, declared in
`ironbee/predicate/eval.hpp` and exercised by
`src/predicate/tests/test_eval.cpp`).

The implementation translation units for `eval.hpp` and `value.hpp` are not
part of the source tree given here; only their unit tests are.  Following the
specification (spec.md sections 3 and 4), the data model and the operations
are therefore modelled from the spec's words, pinned by the behavior the
repository's own test file asserts wherever the test speaks.  One divergence
between the spec's words and the test is recorded at the definition that
carries it (`NodeEvalState.finish`).
-/

set_option autoImplicit false

namespace IronBeePredicate

/-- Phase constant `IB_PHASE_NONE` of the engine's phase enumeration.
Phases are modelled as natural numbers; the evaluation core treats the
phase as an opaque bookkeeping tag (spec section 4.1, `set_phase`/`phase`). -/
def IB_PHASE_NONE : Nat := 0

/-- Phase constant `IB_PHASE_REQUEST_HEADER`, a representative non-none
phase used by the tests. -/
def IB_PHASE_REQUEST_HEADER : Nat := 5

/-- Modelled from the spec: the error kinds of the core (spec section 7).
`einval` is the invalid-state condition (`IronBee::einval` in the tests).
The structural-inconsistency fatal error (forwarding cycle) is modelled as
`Option.none` results of the chain-following functions below. -/
inductive IBError where
  | einval
  deriving Repr, DecidableEq

/-- Modelled from the spec: `Value`, a tagged union of absent, number,
float, string, and list-of-Value (spec section 3).  The floating-point
payload is abstracted as an integer code; no claim touches floats. -/
inductive Value where
  | absent
  | number (n : Int)
  | float (code : Int)
  | str (s : String)
  | list (elts : List Value)
  deriving Repr

/-- Modelled from the spec: the result-production mode of a per-node
evaluation-state record: one of uninitialized, producing-local-list,
forwarding (with its target node index), or aliased (spec section 3).
`uninit` is the uninitialized mode; the forwarding target is carried in
the `forwarding` constructor (`forward_target` is present only in
forwarding mode). -/
inductive Mode where
  | uninit
  | localList
  | forwarding (target : Nat)
  | aliased
  deriving Repr, DecidableEq

/-- Modelled from the spec: `NodeEvalState`, the mutable per-transaction
record of one node's evaluation progress: mode, terminal `finished`
marker, own `value`, last-touched `phase`, and the operator-private
extension slot `state` (a type-erased box, modelled as `Option Int`;
the core never inspects its contents) (spec section 3). -/
structure NodeEvalState where
  mode : Mode
  finished : Bool
  value : Value
  phase : Nat
  state : Option Int
  deriving Repr

namespace NodeEvalState

/-- Modelled from the spec: a freshly constructed `NodeEvalState`: mode
uninitialized, not finished, absent value, phase `IB_PHASE_NONE`, empty
operator-private slot (test `NodeEvalState_Trivial`). -/
def init : NodeEvalState :=
  { mode := Mode.uninit
    finished := false
    value := Value.absent
    phase := IB_PHASE_NONE
    state := none }

/-- Query `is_finished()`: side-effect-free accessor of the terminal marker. -/
def is_finished (s : NodeEvalState) : Bool :=
  s.finished

/-- Query `is_forwarding()`: true exactly when the record is in Forwarding mode. -/
def is_forwarding (s : NodeEvalState) : Bool :=
  match s.mode with
  | Mode.forwarding _ => true
  | _ => false

/-- Query `is_aliased()`: true exactly when the record is in Aliased mode. -/
def is_aliased (s : NodeEvalState) : Bool :=
  match s.mode with
  | Mode.aliased => true
  | _ => false

/-- Query `forwarded_to()`: the forwarding target when in Forwarding mode,
null (`none`) otherwise. -/
def forwarded_to (s : NodeEvalState) : Option Nat :=
  match s.mode with
  | Mode.forwarding t => some t
  | _ => none

/-- Mutator `set_phase(p)`: plain mutator, no state-machine constraint
(spec section 4.1). -/
def set_phase (s : NodeEvalState) (p : Nat) : NodeEvalState :=
  { s with phase := p }

/-- Modelled from the spec: `setup_local_list(allocator)`: transitions
Uninitialized to LocalList, setting the value to an empty list, or
re-applies as a no-op while already LocalList; fails with invalid-state
if currently Forwarding, Aliased, or Finished (spec section 4.1; test
`NodeEvalState_Local`).  The memory-manager argument has no observable
effect in the model and is omitted. -/
def setup_local_list (s : NodeEvalState) : Except IBError NodeEvalState :=
  if s.finished then Except.error IBError.einval
  else
    match s.mode with
    | Mode.uninit => Except.ok { s with mode := Mode.localList, value := Value.list [] }
    | Mode.localList => Except.ok s
    | _ => Except.error IBError.einval

/-- Modelled from the spec: `append_to_list(v)`: valid only in LocalList
mode and not yet Finished; appends `v` at the end of the list value; fails
with invalid-state otherwise (spec section 4.1). -/
def append_to_list (s : NodeEvalState) (v : Value) : Except IBError NodeEvalState :=
  if s.finished then Except.error IBError.einval
  else
    match s.mode, s.value with
    | Mode.localList, Value.list elts =>
        Except.ok { s with value := Value.list (elts ++ [v]) }
    | _, _ => Except.error IBError.einval

/-- Modelled from the spec: `forward(target_node)`: valid only from
Uninitialized and not Finished; fails with invalid-state if the target is
null or if not currently Uninitialized, forwarding being single-shot
(spec section 4.1).  The target is a node index; a null pointer is
`none`. -/
def forward (s : NodeEvalState) (target : Option Nat) : Except IBError NodeEvalState :=
  if s.finished then Except.error IBError.einval
  else
    match s.mode, target with
    | Mode.uninit, some t => Except.ok { s with mode := Mode.forwarding t }
    | _, _ => Except.error IBError.einval

/-- Modelled from the spec: `alias(v)`: valid only from Uninitialized and
not Finished; transitions to Aliased with value `v`; fails with
invalid-state otherwise (spec section 4.1). -/
def «alias» (s : NodeEvalState) (v : Value) : Except IBError NodeEvalState :=
  if s.finished then Except.error IBError.einval
  else
    match s.mode with
    | Mode.uninit => Except.ok { s with mode := Mode.aliased, value := v }
    | _ => Except.error IBError.einval

/-- Modelled from the spec, pinned by the test where the two differ:
`finish()` sets the terminal `finished` marker; it fails with
invalid-state if already Finished or if currently Forwarding (spec
section 4.1; test `NodeEvalState_Finish` and `NodeEvalState_Forwarded`).
The spec's words additionally say a record still Uninitialized rejects
`finish()`, but the repository's test `NodeEvalState_Finish`
(`src/predicate/tests/test_eval.cpp` lines 65-80) asserts with
`EXPECT_NO_THROW` that `finish()` on a freshly constructed record
succeeds, leaving an absent value; the model follows the test. -/
def finish (s : NodeEvalState) : Except IBError NodeEvalState :=
  if s.finished then Except.error IBError.einval
  else
    match s.mode with
    | Mode.forwarding _ => Except.error IBError.einval
    | _ => Except.ok { s with finished := true }

end NodeEvalState

/-- Modelled from the spec: `GraphEvalState`, the per-transaction container
of one per-node evaluation-state record per node index, indexed 1:1 by the
node's dense zero-based index (spec section 3). -/
structure GraphEvalState where
  records : List NodeEvalState
  deriving Repr

namespace GraphEvalState

/-- Constructor `GraphEvalState(n)`: owns exactly `n` freshly constructed
records for a graph of `n` nodes. -/
def create (n : Nat) : GraphEvalState :=
  { records := List.replicate n NodeEvalState.init }

/-- Accessor `node_eval_state(index)`: direct, unresolved access to a record
by index.  An out-of-range index yields a fresh record in the model; the
claims only query in-range indices. -/
def node_eval_state (g : GraphEvalState) (i : Nat) : NodeEvalState :=
  g.records.getD i NodeEvalState.init

/-- Helper of the model: replace the record at index `i`. -/
def setRecord (g : GraphEvalState) (i : Nat) (s : NodeEvalState) : GraphEvalState :=
  { records := g.records.set i s }

/-- Helper of the model: run one per-node operation on the record at index
`i`, storing the updated record on success and propagating the
invalid-state condition unchanged (spec section 4.2, failure semantics). -/
def applyAt (g : GraphEvalState) (i : Nat)
    (f : NodeEvalState → Except IBError NodeEvalState) : Except IBError GraphEvalState :=
  (f (g.node_eval_state i)).map (g.setRecord i)

/-- Modelled from the spec: the fuel-bounded worker of `index_final`:
follows the `forward_target` chain until reaching a record not in
Forwarding mode and returns that record's index; exhausting the fuel is
the defensive cycle guard, a fatal structural-inconsistency failure
modelled as `none` (spec sections 4.2 and 7). -/
def index_final_from (g : GraphEvalState) : Nat → Nat → Option Nat
  | 0, _ => none
  | fuel + 1, i =>
      match (g.node_eval_state i).forwarded_to with
      | none => some i
      | some j => g.index_final_from fuel j

/-- Modelled from the spec: `index_final(node_index)`: follows the
`forward_target` chain starting at `node_index` until reaching a record
not in Forwarding mode, and returns that record (here: its index).  A
chain of forwarding records that is acyclic and in range is shorter than
the number of records, so the fuel suffices for every legal graph. -/
def index_final (g : GraphEvalState) (i : Nat) : Option Nat :=
  g.index_final_from (g.records.length + 1) i

/-- Modelled from the spec: `value(node, tx)`: resolves `index_final(node)`
and returns that record's value; does not itself trigger evaluation
(spec section 4.2). -/
def value (g : GraphEvalState) (i : Nat) : Option Value :=
  (g.index_final i).map (fun j => (g.node_eval_state j).value)

/-- Modelled from the spec: `initialize(node, tx)` for a literal node: a
literal constant aliases its compile-time value and finishes immediately
(spec section 4.2). -/
def init_literal (g : GraphEvalState) (i : Nat) (v : Value) : Except IBError GraphEvalState :=
  g.applyAt i (fun s => (s.«alias» v).bind NodeEvalState.finish)

/-- Modelled from the spec: the fuel-bounded worker of `eval(node, tx)`.
`children` gives each node's child indices and `calcOp` is the node's
external operator-specific evaluation behavior (its `eval_calculate`,
which receives the graph evaluation state and may fail, modelled as
`none`).  For a node work item (`Sum.inl i`): resolve `index_final(i)`;
if the resolved record is already finished, return immediately with the
state unchanged (memoization hit); otherwise evaluate every child in
post-order, stamp the current phase on the resolved record, and invoke
`calcOp` on it.  A child-list work item (`Sum.inr`) evaluates the listed
nodes left to right.  Fuel exhaustion and forwarding cycles are fatal,
modelled as `none` (spec section 4.2). -/
def evalGo (children : Nat → List Nat)
    (calcOp : Nat → GraphEvalState → Option GraphEvalState) (phase : Nat) :
    Nat → GraphEvalState → Nat ⊕ List Nat → Option GraphEvalState
  | 0, _, _ => none
  | fuel + 1, g, Sum.inl i =>
      match g.index_final i with
      | none => none
      | some j =>
          if (g.node_eval_state j).is_finished then some g
          else
            match evalGo children calcOp phase fuel g (Sum.inr (children j)) with
            | none => none
            | some g' =>
                calcOp j (g'.setRecord j ((g'.node_eval_state j).set_phase phase))
  | _ + 1, g, Sum.inr [] => some g
  | fuel + 1, g, Sum.inr (c :: cs) =>
      match evalGo children calcOp phase fuel g (Sum.inl c) with
      | none => none
      | some g' => evalGo children calcOp phase fuel g' (Sum.inr cs)

/-- Modelled from the spec: `eval(node, tx)`, the evaluation entry point,
with the recursion bounded by a fuel derived from the graph size (the
defensive guard of spec section 4.2; legal evaluations of the claims'
graphs complete well within it). -/
def eval (children : Nat → List Nat)
    (calcOp : Nat → GraphEvalState → Option GraphEvalState) (phase : Nat)
    (g : GraphEvalState) (i : Nat) : Option GraphEvalState :=
  evalGo children calcOp phase ((g.records.length + 1) * (g.records.length + 1)) g (Sum.inl i)

end GraphEvalState

/-- Helper of the model: apply `append_to_list` once per element of `vs`,
in order (the N-fold append of the spec's testable property, section 8). -/
def NodeEvalState.appendN : NodeEvalState → List Value → Except IBError NodeEvalState
  | s, [] => Except.ok s
  | s, v :: vs => (s.append_to_list v).bind (fun s' => s'.appendN vs)

/-- Modelled from the spec: a literal node's operator evaluation behavior
(`eval_calculate`) is never legitimately invoked, literals being finished
during their one-time setup; reaching it is a defect, modelled as failure
(spec section 4.2). -/
def literalCalc : Nat → GraphEvalState → Option GraphEvalState :=
  fun _ _ => none

/-- Three-record graph for the spec's chain property: record 0 forwards to
record 1, record 1 forwards to record 2, and record 2 is not forwarding
(the chain A to B to C), built through the state-machine operations. -/
def chainABC : Except IBError GraphEvalState := do
  let g := GraphEvalState.create 3
  let g ← g.applyAt 0 (fun s => s.forward (some 1))
  let g ← g.applyAt 1 (fun s => s.forward (some 2))
  pure g

/-- The chain graph as a plain value (the construction above succeeds, as
the theorems below check by evaluation). -/
def chainABCg : GraphEvalState :=
  chainABC.toOption.getD (GraphEvalState.create 0)

/-- The 5-node graph of test `GraphEvalState` (`test_eval.cpp` lines
173-212): record 3 forwards to node 2, record 2 forwards to node 4,
record 1 is aliased to the number 5 and finished, record 0 has a local
list set up, and node 4 (the literal "Hello World") gets its one-time
initial setup, aliasing its constant and finishing. -/
def gesScenario : Except IBError GraphEvalState := do
  let g := GraphEvalState.create 5
  let g ← g.applyAt 3 (fun s => s.forward (some 2))
  let g ← g.applyAt 2 (fun s => s.forward (some 4))
  let g ← g.applyAt 1 (fun s => s.«alias» (Value.number 5))
  let g ← g.applyAt 1 NodeEvalState.finish
  let g ← g.applyAt 0 NodeEvalState.setup_local_list
  let g ← g.init_literal 4 (Value.str "Hello World")
  pure g

/-- The scenario graph after `eval(node3)` at a request phase: literal
nodes have no children, and their operator behavior is `literalCalc`. -/
def gesAfterEval : Option GraphEvalState :=
  gesScenario.toOption.bind
    (fun g => g.eval (fun _ => []) literalCalc IB_PHASE_REQUEST_HEADER 3)

/-- One-record graph whose only record is already finished: the smallest
memoization-hit configuration. -/
def memoG : GraphEvalState :=
  ((GraphEvalState.create 1).applyAt 0 NodeEvalState.finish).toOption.getD
    (GraphEvalState.create 0)

/-- A fresh record whose terminal marker has been set by `finish`. -/
def finishedFresh : NodeEvalState :=
  { NodeEvalState.init with finished := true }

/-- A fresh record forwarded to node index 7. -/
def fwdSeven : NodeEvalState :=
  { NodeEvalState.init with mode := Mode.forwarding 7 }

/-- A fresh record aliased to the number 5, as in test
`NodeEvalState_Aliased`. -/
def aliasedFive : NodeEvalState :=
  { NodeEvalState.init with mode := Mode.aliased, value := Value.number 5 }

/-- A fresh record just after `setup_local_list`: list mode, empty list. -/
def localEmpty : NodeEvalState :=
  { NodeEvalState.init with mode := Mode.localList, value := Value.list [] }

/-- The list-mode record after appending the numbers 1 and 2. -/
def localTwo : NodeEvalState :=
  { localEmpty with value := Value.list [Value.number 1, Value.number 2] }

/-- Inversion of `finish`: success requires an unfinished, non-forwarding
record and only flips the terminal marker. -/
theorem NodeEvalState.finish_ok_inv (s s' : NodeEvalState)
    (h : s.finish = Except.ok s') :
    s.finished = false ∧ s.forwarded_to = none ∧ s' = { s with finished := true } := by
  obtain ⟨mo, fi, va, ph, st⟩ := s
  cases fi <;> cases mo <;>
    simp_all [NodeEvalState.finish, NodeEvalState.forwarded_to]

/-- Inversion of `forward`: success requires an unfinished record in the
uninitialized mode and a non-null target, and only sets the mode. -/
theorem NodeEvalState.forward_ok_inv (s s' : NodeEvalState) (u : Option Nat)
    (h : s.forward u = Except.ok s') :
    s.finished = false ∧ s.mode = Mode.uninit ∧
      ∃ t, u = some t ∧ s' = { s with mode := Mode.forwarding t } := by
  obtain ⟨mo, fi, va, ph, st⟩ := s
  cases fi <;> cases mo <;> cases u <;>
    simp_all [NodeEvalState.forward]

/-- Inversion of `alias`: success requires an unfinished record in the
uninitialized mode and sets the mode and the value. -/
theorem NodeEvalState.alias_ok_inv (s s' : NodeEvalState) (v : Value)
    (h : s.«alias» v = Except.ok s') :
    s.finished = false ∧ s.mode = Mode.uninit ∧
      s' = { s with mode := Mode.aliased, value := v } := by
  obtain ⟨mo, fi, va, ph, st⟩ := s
  cases fi <;> cases mo <;>
    simp_all [NodeEvalState.«alias»]

/-- Inversion of `setup_local_list`: success requires an unfinished record
in the uninitialized or list mode; from uninitialized it installs the empty
list, from the list mode it is a no-op. -/
theorem NodeEvalState.setup_ok_inv (s s' : NodeEvalState)
    (h : s.setup_local_list = Except.ok s') :
    s.finished = false ∧
      ((s.mode = Mode.uninit ∧
          s' = { s with mode := Mode.localList, value := Value.list [] }) ∨
        (s.mode = Mode.localList ∧ s' = s)) := by
  obtain ⟨mo, fi, va, ph, st⟩ := s
  cases fi <;> cases mo <;>
    simp_all [NodeEvalState.setup_local_list]

/-- Every state-machine operation fails with the invalid-state condition on
a record whose terminal marker is set. -/
theorem NodeEvalState.finished_rejects_all (s : NodeEvalState)
    (hf : s.finished = true) :
    s.setup_local_list = Except.error IBError.einval ∧
    (∀ v, s.append_to_list v = Except.error IBError.einval) ∧
    (∀ u, s.forward u = Except.error IBError.einval) ∧
    (∀ v, s.«alias» v = Except.error IBError.einval) ∧
    s.finish = Except.error IBError.einval := by
  refine ⟨?_, fun v => ?_, fun u => ?_, fun v => ?_, ?_⟩ <;>
    simp [NodeEvalState.setup_local_list, NodeEvalState.append_to_list,
      NodeEvalState.forward, NodeEvalState.«alias», NodeEvalState.finish, hf]

/-- Every state-machine operation fails with the invalid-state condition on
a record in the forwarding mode. -/
theorem NodeEvalState.forwarding_rejects_all (s : NodeEvalState) (t : Nat)
    (hm : s.mode = Mode.forwarding t) :
    s.setup_local_list = Except.error IBError.einval ∧
    (∀ v, s.append_to_list v = Except.error IBError.einval) ∧
    (∀ u, s.forward u = Except.error IBError.einval) ∧
    (∀ v, s.«alias» v = Except.error IBError.einval) ∧
    s.finish = Except.error IBError.einval := by
  obtain ⟨mo, fi, va, ph, st⟩ := s
  subst hm
  refine ⟨?_, fun v => ?_, fun u => ?_, fun v => ?_, ?_⟩ <;>
    cases fi <;>
      simp [NodeEvalState.setup_local_list, NodeEvalState.append_to_list,
        NodeEvalState.forward, NodeEvalState.«alias», NodeEvalState.finish]

/-- Appending while in the list mode succeeds and appends at the end. -/
theorem NodeEvalState.append_ok (s : NodeEvalState) (xs : List Value) (v : Value)
    (hf : s.finished = false) (hm : s.mode = Mode.localList)
    (hv : s.value = Value.list xs) :
    s.append_to_list v = Except.ok { s with value := Value.list (xs ++ [v]) } := by
  obtain ⟨mo, fi, va, ph, st⟩ := s
  subst hm hf hv
  simp [NodeEvalState.append_to_list]

/-- The N-fold append while in the list mode succeeds and concatenates the
appended values at the end, in order. -/
theorem NodeEvalState.appendN_ok (vs : List Value) (s : NodeEvalState)
    (xs : List Value) (hf : s.finished = false) (hm : s.mode = Mode.localList)
    (hv : s.value = Value.list xs) :
    s.appendN vs = Except.ok { s with value := Value.list (xs ++ vs) } := by
  induction vs generalizing s xs with
  | nil =>
      simp [NodeEvalState.appendN, ← hv]
  | cons v vs ih =>
      rw [NodeEvalState.appendN, NodeEvalState.append_ok s xs v hf hm hv]
      rw [Except.bind]
      rw [ih { s with value := Value.list (xs ++ [v]) } (xs ++ [v]) hf hm rfl]
      simp

/-- Resolution results of the fuel-bounded chain follower are records that
are not forwarding. -/
theorem GraphEvalState.index_final_from_ok (g : GraphEvalState) :
    ∀ fuel i j, g.index_final_from fuel i = some j →
      (g.node_eval_state j).forwarded_to = none := by
  intro fuel
  induction fuel with
  | zero => intro i j h; simp [GraphEvalState.index_final_from] at h
  | succ n ih =>
      intro i j h
      rw [GraphEvalState.index_final_from] at h
      cases hfwd : (g.node_eval_state i).forwarded_to with
      | none => rw [hfwd] at h; cases h; exact hfwd
      | some k => rw [hfwd] at h; exact ih k j h

/-- A record is forwarding exactly when its forwarding target is set. -/
theorem NodeEvalState.is_forwarding_iff (s : NodeEvalState) :
    s.is_forwarding = false ↔ s.forwarded_to = none := by
  cases hm : s.mode <;>
    simp [NodeEvalState.is_forwarding, NodeEvalState.forwarded_to, hm]

/-- C1: for every `NodeEvalState`, `is_finished()` is false before the
first successful `finish()` call and true after it, and a second `finish()`
after a successful one fails with the invalid-state condition, so `finish`
succeeds at most once per record per transaction. -/
theorem C1_finish_at_most_once (s s' : NodeEvalState)
    (h : s.finish = Except.ok s') :
    s.is_finished = false ∧ s'.is_finished = true ∧
      s'.finish = Except.error IBError.einval := by
  obtain ⟨hf, -, hs'⟩ := NodeEvalState.finish_ok_inv s s' h
  subst hs'
  refine ⟨?_, rfl, ?_⟩
  · simpa [NodeEvalState.is_finished] using hf
  · simp [NodeEvalState.finish]

/-- Witness for C1 at a freshly constructed record. -/
theorem C1_finish_at_most_once_witness :
    NodeEvalState.init.is_finished = false ∧ finishedFresh.is_finished = true ∧
      finishedFresh.finish = Except.error IBError.einval :=
  C1_finish_at_most_once NodeEvalState.init finishedFresh rfl

/-- C2, counterexample: a freshly constructed record is in the
uninitialized mode with no prior producing call, yet `finish()` succeeds
on it rather than failing with the invalid-state condition, exactly as
test `NodeEvalState_Finish` asserts with `EXPECT_NO_THROW`. -/
theorem C2_counterexample :
    NodeEvalState.init.mode = Mode.uninit ∧
    NodeEvalState.init.finish = Except.ok finishedFresh ∧
    NodeEvalState.init.finish ≠ Except.error IBError.einval := by
  refine ⟨rfl, rfl, ?_⟩
  intro h
  rw [show NodeEvalState.init.finish = Except.ok finishedFresh from rfl] at h
  exact Except.noConfusion h

/-- C2, amended: calling `finish()` on a `NodeEvalState` that is still
Uninitialized (no prior `setup_local_list`, `alias`, or `forward` call)
succeeds, setting the terminal marker with the value left unchanged
(absent for a fresh record); a record in Uninitialized mode nevertheless
rejects `append_to_list` with the invalid-state condition. -/
theorem C2_uninit_finish (s : NodeEvalState) (hm : s.mode = Mode.uninit)
    (hf : s.finished = false) :
    s.finish = Except.ok { s with finished := true } ∧
    (∀ v, s.append_to_list v = Except.error IBError.einval) ∧
    ({ s with finished := true } : NodeEvalState).value = s.value := by
  obtain ⟨mo, fi, va, ph, st⟩ := s
  subst hm hf
  refine ⟨rfl, fun v => ?_, rfl⟩
  simp [NodeEvalState.append_to_list]

/-- Witness for the amended C2 at a freshly constructed record. -/
theorem C2_uninit_finish_witness :
    NodeEvalState.init.finish = Except.ok finishedFresh ∧
      NodeEvalState.init.append_to_list Value.absent
        = Except.error IBError.einval :=
  ⟨(C2_uninit_finish NodeEvalState.init rfl rfl).1,
   (C2_uninit_finish NodeEvalState.init rfl rfl).2.1 Value.absent⟩

/-- C3: in the 5-node graph where node 4 is a constant aliased to the
string "Hello World" and finished, node 2 forwards to node 4, and node 3
forwards to node 2, the state after the one-time setup of node 4 and
`eval(node3)` satisfies: `value(node3)` equals "Hello World"; `index_final`
of indices 2, 3, and 4 all return node 4's record, which is finished with
that value; and node 0 remains unfinished. -/
theorem C3_graph_scenario :
    gesAfterEval.map (fun g => g.value 3)
        = some (some (Value.str "Hello World")) ∧
    gesAfterEval.map
        (fun g => (g.index_final 2, g.index_final 3, g.index_final 4))
        = some (some 4, some 4, some 4) ∧
    gesAfterEval.map
        (fun g => ((g.node_eval_state 4).is_finished, (g.node_eval_state 4).value))
        = some (true, Value.str "Hello World") ∧
    gesAfterEval.map (fun g => (g.node_eval_state 0).is_finished)
        = some false :=
  ⟨rfl, rfl, rfl, rfl⟩

/-- C4: whenever `index_final` resolves an index, the record it returns is
not in Forwarding mode and a repeated call at the result returns the same
record (idempotence); and on the chain where record 0 forwards to record 1
and record 1 forwards to the non-forwarding record 2, queries at 0, 1,
and 2 all return record 2. -/
theorem C4_index_final (g : GraphEvalState) (i j : Nat)
    (h : g.index_final i = some j) :
    ((g.node_eval_state j).is_forwarding = false ∧ g.index_final j = some j) ∧
    (chainABCg.index_final 0 = some 2 ∧ chainABCg.index_final 1 = some 2 ∧
      chainABCg.index_final 2 = some 2) := by
  have hnone := GraphEvalState.index_final_from_ok g _ i j h
  refine ⟨⟨(NodeEvalState.is_forwarding_iff _).mpr hnone, ?_⟩, rfl, rfl, rfl⟩
  rw [GraphEvalState.index_final, GraphEvalState.index_final_from, hnone]

/-- Witness for C4 on the concrete chain, querying its head. -/
theorem C4_index_final_witness :
    ((chainABCg.node_eval_state 2).is_forwarding = false ∧
      chainABCg.index_final 2 = some 2) ∧
    (chainABCg.index_final 0 = some 2 ∧ chainABCg.index_final 1 = some 2 ∧
      chainABCg.index_final 2 = some 2) :=
  C4_index_final chainABCg 0 2 rfl

/-- C5: after `forward(T)` succeeds from Uninitialized with a non-null
target `T`, every subsequent `setup_local_list`, `forward`, `alias`,
`append_to_list`, or `finish` call on the record fails with the
invalid-state condition, `is_forwarding()` is true, and `forwarded_to()`
returns `T`. -/
theorem C5_forwarding_locked (s s' : NodeEvalState) (t : Nat)
    (h : s.forward (some t) = Except.ok s') :
    s'.is_forwarding = true ∧ s'.forwarded_to = some t ∧
    s'.setup_local_list = Except.error IBError.einval ∧
    (∀ u, s'.forward u = Except.error IBError.einval) ∧
    (∀ v, s'.«alias» v = Except.error IBError.einval) ∧
    (∀ v, s'.append_to_list v = Except.error IBError.einval) ∧
    s'.finish = Except.error IBError.einval := by
  obtain ⟨hf, hm, t', ht, hs'⟩ := NodeEvalState.forward_ok_inv s s' (some t) h
  injection ht with h2
  subst h2
  subst hs'
  obtain ⟨h1, h2, h3, h4, h5⟩ :=
    NodeEvalState.forwarding_rejects_all { s with mode := Mode.forwarding t } t rfl
  exact ⟨rfl, rfl, h1, h3, h4, h2, h5⟩

/-- Witness for C5: a fresh record forwarded to node index 7. -/
theorem C5_forwarding_locked_witness :
    fwdSeven.is_forwarding = true ∧ fwdSeven.forwarded_to = some 7 ∧
    fwdSeven.setup_local_list = Except.error IBError.einval ∧
    fwdSeven.forward none = Except.error IBError.einval ∧
    fwdSeven.«alias» Value.absent = Except.error IBError.einval ∧
    fwdSeven.append_to_list Value.absent = Except.error IBError.einval ∧
    fwdSeven.finish = Except.error IBError.einval :=
  let h := C5_forwarding_locked NodeEvalState.init fwdSeven 7 rfl
  ⟨h.1, h.2.1, h.2.2.1, h.2.2.2.1 none, h.2.2.2.2.1 Value.absent,
    h.2.2.2.2.2.1 Value.absent, h.2.2.2.2.2.2⟩

/-- C6: after `alias(v)` succeeds from Uninitialized, `value()` equals `v`
immediately (before `finish`), `is_aliased()` is true, every subsequent
`setup_local_list`, `forward`, `alias`, or `append_to_list` call fails
with the invalid-state condition, and `finish()` succeeds exactly once. -/
theorem C6_aliased_value (s s' : NodeEvalState) (v : Value)
    (h : s.«alias» v = Except.ok s') :
    s'.value = v ∧ s'.is_aliased = true ∧ s'.is_finished = false ∧
    s'.setup_local_list = Except.error IBError.einval ∧
    (∀ u, s'.forward u = Except.error IBError.einval) ∧
    (∀ w, s'.«alias» w = Except.error IBError.einval) ∧
    (∀ w, s'.append_to_list w = Except.error IBError.einval) ∧
    s'.finish = Except.ok { s' with finished := true } ∧
    ({ s' with finished := true } : NodeEvalState).finish
      = Except.error IBError.einval := by
  obtain ⟨hf, hm, hs'⟩ := NodeEvalState.alias_ok_inv s s' v h
  subst hs'
  obtain ⟨mo, fi, va, ph, st⟩ := s
  subst hf
  refine ⟨rfl, rfl, rfl, ?_, fun u => ?_, fun w => ?_, fun w => ?_, rfl, ?_⟩ <;>
    simp [NodeEvalState.setup_local_list, NodeEvalState.forward,
      NodeEvalState.«alias», NodeEvalState.append_to_list, NodeEvalState.finish]

/-- Witness for C6: a fresh record aliased to the number 5. -/
theorem C6_aliased_value_witness :
    aliasedFive.value = Value.number 5 ∧ aliasedFive.is_aliased = true ∧
    aliasedFive.is_finished = false ∧
    aliasedFive.setup_local_list = Except.error IBError.einval ∧
    aliasedFive.forward none = Except.error IBError.einval ∧
    aliasedFive.«alias» Value.absent = Except.error IBError.einval ∧
    aliasedFive.append_to_list Value.absent = Except.error IBError.einval ∧
    aliasedFive.finish = Except.ok { aliasedFive with finished := true } ∧
    ({ aliasedFive with finished := true } : NodeEvalState).finish
      = Except.error IBError.einval :=
  let h := C6_aliased_value NodeEvalState.init aliasedFive (Value.number 5) rfl
  ⟨h.1, h.2.1, h.2.2.1, h.2.2.2.1, h.2.2.2.2.1 none, h.2.2.2.2.2.1 Value.absent,
    h.2.2.2.2.2.2.1 Value.absent, h.2.2.2.2.2.2.2.1, h.2.2.2.2.2.2.2.2⟩

/-- C7: `setup_local_list` transitions Uninitialized to LocalList with an
empty list value; N subsequent `append_to_list` calls yield a value that
is exactly the list of the N appended values in append order; and calling
`setup_local_list` again while still in (unfinished) LocalList mode does
not fail and does not change the record, even after entries have been
appended. -/
theorem C7_setup_local_list (s s' : NodeEvalState) (vs : List Value)
    (hm : s.mode = Mode.uninit) (hf : s.finished = false)
    (h : s.setup_local_list = Except.ok s') :
    s'.mode = Mode.localList ∧ s'.value = Value.list [] ∧
    s'.appendN vs = Except.ok { s' with value := Value.list vs } ∧
    ({ s' with value := Value.list vs } : NodeEvalState).setup_local_list
      = Except.ok { s' with value := Value.list vs } := by
  obtain ⟨-, hcase⟩ := NodeEvalState.setup_ok_inv s s' h
  rcases hcase with ⟨-, hs'⟩ | ⟨hliv, -⟩
  · subst hs'
    obtain ⟨mo, fi, va, ph, st⟩ := s
    subst hm hf
    refine ⟨rfl, rfl, ?_, ?_⟩
    · simpa using NodeEvalState.appendN_ok vs
        ⟨Mode.localList, false, Value.list [], ph, st⟩ [] rfl rfl rfl
    · simp [NodeEvalState.setup_local_list]
  · rw [hm] at hliv
    exact absurd hliv (by simp)

/-- Witness for C7: a fresh record, two appended numbers. -/
theorem C7_setup_local_list_witness :
    localEmpty.mode = Mode.localList ∧ localEmpty.value = Value.list [] ∧
    localEmpty.appendN [Value.number 1, Value.number 2] = Except.ok localTwo ∧
    localTwo.setup_local_list = Except.ok localTwo :=
  let h := C7_setup_local_list NodeEvalState.init localEmpty
    [Value.number 1, Value.number 2] rfl rfl rfl
  ⟨h.1, h.2.1, h.2.2.1, h.2.2.2⟩

/-- C8: for every node whose `index_final` record is already finished,
`eval` returns immediately: the whole graph evaluation state (every
record's mode, value, and finished flag) is unchanged, and the result
does not depend on the operator evaluation behavior, which is therefore
not invoked (memoization hit). -/
theorem C8_memoization_hit (children : Nat → List Nat)
    (calcOp calcOp' : Nat → GraphEvalState → Option GraphEvalState)
    (phase : Nat) (g : GraphEvalState) (i j : Nat)
    (h : g.index_final i = some j)
    (hf : (g.node_eval_state j).is_finished = true) :
    g.eval children calcOp phase i = some g ∧
      g.eval children calcOp phase i = g.eval children calcOp' phase i := by
  have key : ∀ (co : Nat → GraphEvalState → Option GraphEvalState) (fuel : Nat),
      GraphEvalState.evalGo children co phase (fuel + 1) g (Sum.inl i) = some g := by
    intro co fuel
    simp [GraphEvalState.evalGo, h, hf]
  obtain ⟨k, hk⟩ : ∃ k, (g.records.length + 1) * (g.records.length + 1) = k + 1 :=
    ⟨(g.records.length + 1) * g.records.length + g.records.length, by ring⟩
  refine ⟨?_, ?_⟩
  · rw [GraphEvalState.eval, hk]
    exact key calcOp k
  · rw [GraphEvalState.eval, GraphEvalState.eval, hk, key calcOp k, key calcOp' k]

/-- Witness for C8: the one-record graph whose record is finished. -/
theorem C8_memoization_hit_witness :
    memoG.eval (fun _ => []) literalCalc IB_PHASE_NONE 0 = some memoG ∧
      memoG.eval (fun _ => []) literalCalc IB_PHASE_NONE 0
        = memoG.eval (fun _ => []) (fun _ g => some g) IB_PHASE_NONE 0 :=
  C8_memoization_hit (fun _ => []) literalCalc (fun _ g => some g)
    IB_PHASE_NONE memoG 0 0 rfl rfl

/-- C9: once the terminal marker is set, no operation changes the record's
value: every mutating operation fails with the invalid-state condition and
`set_phase` leaves the value unchanged; before the terminal marker, a
LocalList record's value only grows by appends at the end: existing
entries are preserved, `setup_local_list` re-application and `finish`
leave the value unchanged, and mode changes away from LocalList are
rejected. -/
theorem C9_value_monotone (s : NodeEvalState) (xs : List Value) :
    (s.finished = true →
      s.setup_local_list = Except.error IBError.einval ∧
      (∀ v, s.append_to_list v = Except.error IBError.einval) ∧
      (∀ u, s.forward u = Except.error IBError.einval) ∧
      (∀ v, s.«alias» v = Except.error IBError.einval) ∧
      s.finish = Except.error IBError.einval ∧
      (∀ p, (s.set_phase p).value = s.value)) ∧
    (s.finished = false → s.mode = Mode.localList → s.value = Value.list xs →
      (∀ v, s.append_to_list v
          = Except.ok { s with value := Value.list (xs ++ [v]) }) ∧
      s.setup_local_list = Except.ok s ∧
      s.finish = Except.ok { s with finished := true } ∧
      (∀ u, s.forward u = Except.error IBError.einval) ∧
      (∀ v, s.«alias» v = Except.error IBError.einval)) := by
  constructor
  · intro hf
    obtain ⟨h1, h2, h3, h4, h5⟩ := NodeEvalState.finished_rejects_all s hf
    exact ⟨h1, h2, h3, h4, h5, fun p => rfl⟩
  · intro hf hm hv
    refine ⟨fun v => NodeEvalState.append_ok s xs v hf hm hv, ?_, ?_, fun u => ?_,
      fun v => ?_⟩ <;>
      (obtain ⟨mo, fi, va, ph, st⟩ := s
       subst hm hf
       simp [NodeEvalState.setup_local_list, NodeEvalState.finish,
         NodeEvalState.forward, NodeEvalState.«alias»])

/-- Witness for C9: a finished fresh record and the two-element list
record. -/
theorem C9_value_monotone_witness :
    (finishedFresh.setup_local_list = Except.error IBError.einval ∧
      finishedFresh.finish = Except.error IBError.einval ∧
      (finishedFresh.set_phase IB_PHASE_REQUEST_HEADER).value
        = finishedFresh.value) ∧
    (localTwo.append_to_list Value.absent
        = Except.ok { localTwo with
            value := Value.list
              ([Value.number 1, Value.number 2] ++ [Value.absent]) } ∧
      localTwo.setup_local_list = Except.ok localTwo ∧
      localTwo.finish = Except.ok { localTwo with finished := true }) :=
  let h1 := (C9_value_monotone finishedFresh []).1 rfl
  let h2 := (C9_value_monotone localTwo [Value.number 1, Value.number 2]).2
    rfl rfl rfl
  ⟨⟨h1.1, h1.2.2.2.2.1, h1.2.2.2.2.2 IB_PHASE_REQUEST_HEADER⟩,
    ⟨h2.1 Value.absent, h2.2.1, h2.2.2.1⟩⟩

/-- C10: a freshly constructed `NodeEvalState` reports not finished, not
forwarding, not aliased, a null forwarding target, phase `IB_PHASE_NONE`,
an absent value, and an empty operator-private `state()` slot. -/
theorem C10_fresh_record :
    NodeEvalState.init.is_finished = false ∧
    NodeEvalState.init.is_forwarding = false ∧
    NodeEvalState.init.is_aliased = false ∧
    NodeEvalState.init.forwarded_to = none ∧
    NodeEvalState.init.phase = IB_PHASE_NONE ∧
    NodeEvalState.init.value = Value.absent ∧
    NodeEvalState.init.state = none :=
  ⟨rfl, rfl, rfl, rfl, rfl, rfl, rfl⟩

end IronBeePredicate
